import Mathlib

/-!
The window preferences capplet, mate-window-properties.

A shallow embedding of `capplets/windows/mate-window-properties.c`.

* The settings store (`marco_settings`) is a record of the keys the capplet
  reads and writes.
* The widgets the callbacks touch are a record of their observable state
  (sensitivity, toggle state, slider position).
* `mouse_modifiers` is a list of `MouseClickModifier` records; the radio
  button of each entry is carried inside the entry, as in the C struct.
* The X keyboard data read by `reload_mouse_modifiers` (keycode range,
  keysym table, modifier map) is an explicit input record.

The `while` loops of the source are count-down recursions that carry the
loop variable explicitly. Toolkit and Xlib calls are modelled by their
documented effect on this state: `gtk_toggle_button_set_active` emits
`toggled` only when the state changes, a radio that becomes active
deactivates the rest of its group, `gtk_range_set_value` clamps into the
range, and a key read past the end of the fetched keysym table yields no
keysym. A double is carried as the rational it denotes, and a product or
quotient of doubles is the exact result rounded to the nearest double
(IEEE 754, ties to even).
-/

namespace MateWindowProperties

/-! ## Settings store -/

/-- The focus mode enum of the source: FOCUS_MODE_CLICK, FOCUS_MODE_SLOPPY,
FOCUS_MODE_MOUSE. -/
inductive FocusMode where
  | click
  | sloppy
  | mouse
  deriving DecidableEq, Repr

/-- The keys of the schema `org.mate.Marco.general` the capplet uses. -/
structure Settings where
  focus_mode : FocusMode
  auto_raise : Bool
  auto_raise_delay : Int
  mouse_button_modifier : String
  action_double_click_titlebar : Nat
  compositing_manager : Bool
  compositing_fast_alt_tab : Bool
  deriving DecidableEq

/-- Observable state of the widgets the callbacks act on: the sensitivity of
the three dependent controls, the state of the focus-mode check button, and
the range and position of the auto-raise delay slider (a double is carried
as the rational it denotes; the arithmetic on doubles rounds, see
`round_to_double`). -/
structure Widgets where
  compositing_fast_alt_tab_sensitive : Bool
  autoraise_sensitive : Bool
  autoraise_delay_hbox_sensitive : Bool
  focus_mode_active : Bool
  slider_lower : ℚ
  slider_upper : ℚ
  slider_value : ℚ
  deriving DecidableEq

/-- The capplet: the settings handle and the widgets. -/
structure Dialog where
  settings : Settings
  widgets : Widgets
  deriving DecidableEq

/-! ## Sensitivity -/

/-- The function `update_sensitivity` of the source: three calls of
`gtk_widget_set_sensitive`, each with a value read from the store. -/
def update_sensitivity (d : Dialog) : Dialog :=
  let w1 := { d.widgets with
    compositing_fast_alt_tab_sensitive := d.settings.compositing_manager }
  let w2 := { w1 with
    autoraise_sensitive := decide (d.settings.focus_mode ≠ FocusMode.click) }
  let w3 := { w2 with
    autoraise_delay_hbox_sensitive :=
      decide (d.settings.focus_mode ≠ FocusMode.click) && d.settings.auto_raise }
  { d with widgets := w3 }

/-- The handler `marco_settings_changed_callback`: runs on every change of
the store. -/
def marco_settings_changed_callback (d : Dialog) : Dialog :=
  update_sensitivity d

/-! ## Mouse modifier options -/

/-- A radio button: the two toggle-button properties the capplet sets. -/
structure Radio where
  active : Bool
  inconsistent : Bool
  deriving DecidableEq, Repr

/-- The struct `MouseClickModifier` of the source. The radio pointer is
`none` while it is NULL. -/
structure MouseClickModifier where
  number : Nat
  name : String
  value : String
  radio : Option Radio
  deriving DecidableEq, Repr

/-- The count `n_mouse_modifiers` as computed before the array is
allocated: one for Alt, plus one per flag. -/
def count_mouse_modifiers (have_hyper have_super have_meta : Bool) : Nat :=
  let n := 1
  let n := if have_super then n + 1 else n
  let n := if have_hyper then n + 1 else n
  let n := if have_meta then n + 1 else n
  n

/-- One block `mouse_modifiers[i].number = i; ... ; ++i`: the entry is
written at the running index `i`, which is the number of entries written so
far. The radio is still NULL (the array comes from `g_new0`). -/
def add_modifier (arr : List MouseClickModifier) (name value : String) :
    List MouseClickModifier :=
  arr ++ [{ number := arr.length, name := name, value := value, radio := none }]

/-- The entries written by `reload_mouse_modifiers` between `i = 0` and the
assertion `i == n_mouse_modifiers`. -/
def build_mouse_modifiers (have_hyper have_super have_meta : Bool) :
    List MouseClickModifier :=
  let arr := add_modifier [] "_Alt" "Alt"
  let arr := if have_hyper then add_modifier arr "H_yper" "Hyper" else arr
  let arr := if have_super then
    add_modifier arr "S_uper (or \"Windows logo\")" "Super" else arr
  let arr := if have_meta then add_modifier arr "_Meta" "Meta" else arr
  arr

/-- The function `fill_radio`: a new radio button joins the group. The
first button of a group (`group == NULL`) starts active, a button that joins
an existing group starts inactive; none starts inconsistent. -/
def fill_radio (first : Bool) (modifier : MouseClickModifier) : MouseClickModifier :=
  { modifier with radio := some { active := first, inconsistent := false } }

/-- The last loop of `reload_mouse_modifiers`: `fill_radio` for every entry,
with `i` the running index. -/
def fill_radios : Nat → List MouseClickModifier → List MouseClickModifier
  | _, [] => []
  | i, m :: rest => fill_radio (i == 0) m :: fill_radios (i + 1) rest

/-- The option list `reload_mouse_modifiers` leaves in `mouse_modifiers`,
given the three presence flags. -/
def mouse_modifiers_of_flags (have_hyper have_super have_meta : Bool) :
    List MouseClickModifier :=
  fill_radios 0 (build_mouse_modifiers have_hyper have_super have_meta)

/-- The storage values of an option list, in order. -/
def values (mods : List MouseClickModifier) : List String :=
  mods.map (fun m => m.value)

/-! ## The alt-click modifier binding -/

/-- The call `g_strdup_printf ("<%s>", value)`. -/
def bracketed (value : String) : String :=
  "<" ++ value ++ ">"

/-- The handler `alt_click_radio_toggled_callback`, connected to the
`toggled` signal of each radio with its own entry as `data`: `active` is the
state of the radio when the signal arrives. -/
def alt_click_radio_toggled_callback (active : Bool) (modifier : MouseClickModifier)
    (s : Settings) : Settings :=
  if active then
    { s with mouse_button_modifier := bracketed modifier.value }
  else
    s

/-- The search loop of `set_alt_click_value`: the index of the first entry,
from index `i` on, whose bracketed value is `strcmp`-equal to the stored
string (the loop leaves at the first match with `break`). -/
def find_modifier (mouse_move_modifier : String) :
    Nat → List MouseClickModifier → Option Nat
  | _, [] => none
  | i, m :: rest =>
    if bracketed m.value = mouse_move_modifier then some i
    else find_modifier mouse_move_modifier (i + 1) rest

/-- The call `gtk_toggle_button_set_active (radio, TRUE)` on the radio of
entry `k`, for entries numbered from `i`: within a radio group the button
becomes the active one and the others are inactive. An entry without a
radio is left alone. -/
def radio_set_active (k : Nat) : Nat → List MouseClickModifier → List MouseClickModifier
  | _, [] => []
  | i, m :: rest =>
    { m with radio := m.radio.map (fun r => { r with active := (i == k) }) }
      :: radio_set_active k (i + 1) rest

/-- The second loop of `set_alt_click_value`: the call
`gtk_toggle_button_set_inconsistent (radio, b)` for every entry. -/
def set_all_inconsistent (b : Bool) (mods : List MouseClickModifier) :
    List MouseClickModifier :=
  mods.map (fun m =>
    { m with radio := m.radio.map (fun r => { r with inconsistent := b }) })

/-- The function `set_alt_click_value`, on the string read from the store
(`none` is the NULL pointer the source guards against) and the current
option list. -/
def set_alt_click_value (mouse_move_modifier : Option String)
    (mods : List MouseClickModifier) : List MouseClickModifier :=
  let found : Option Nat :=
    match mouse_move_modifier with
    | none => none
    | some str => find_modifier str 0 mods
  let mods1 :=
    match found with
    | some i => radio_set_active i 0 mods
    | none => mods
  let match_found := found.isSome
  set_all_inconsistent (!match_found) mods1

/-- The call `g_settings_get_string (marco_settings, "mouse-button-modifier")`. -/
def get_mouse_button_modifier (s : Settings) : Option String :=
  some s.mouse_button_modifier

/-- The `active` flags of the radios of an option list (`none` for an entry
whose radio is NULL). -/
def active_flags (mods : List MouseClickModifier) : List (Option Bool) :=
  mods.map (fun m => m.radio.map (fun r => r.active))

/-- The `inconsistent` flags of the radios of an option list. -/
def inconsistent_flags (mods : List MouseClickModifier) : List (Option Bool) :=
  mods.map (fun m => m.radio.map (fun r => r.inconsistent))

/-! ## The focus-mode toggle -/

/-- The two handlers that call each other through signals. -/
inductive Handler where
  | mouse_focus_changed
  | mouse_focus_toggled
  deriving DecidableEq, Repr

/-- The handlers `mouse_focus_changed_callback` and
`mouse_focus_toggled_callback` with the signals they raise, as connected in
`main`. The fuel bounds the depth of nested signal emissions.

* `mouse_focus_changed`: the store has just announced a change of
  `focus-mode`. The handlers of `changed` run in connection order, first
  `marco_settings_changed_callback`, then `mouse_focus_changed_callback`,
  which calls `gtk_toggle_button_set_active` with `focus_mode == SLOPPY`.
  That call does nothing when the button already has this state; otherwise
  it flips the button and emits `toggled`.
* `mouse_focus_toggled`: the check button has just changed state;
  `mouse_focus_toggled_callback` writes SLOPPY or CLICK to the store
  according to the new state, and the store announces the change. -/
def run_handler : Nat → Handler → Dialog → Option Dialog
  | 0, _, _ => none
  | fuel + 1, Handler.mouse_focus_changed, d =>
    let d1 := marco_settings_changed_callback d
    let is_active := decide (d1.settings.focus_mode = FocusMode.sloppy)
    if d1.widgets.focus_mode_active = is_active then
      some d1
    else
      run_handler fuel Handler.mouse_focus_toggled
        { d1 with widgets := { d1.widgets with focus_mode_active := is_active } }
  | fuel + 1, Handler.mouse_focus_toggled, d =>
    let mode := if d.widgets.focus_mode_active then FocusMode.sloppy else FocusMode.click
    run_handler fuel Handler.mouse_focus_changed
      { d with settings := { d.settings with focus_mode := mode } }

/-- The handler `mouse_focus_changed_callback` together with everything
it sets off. -/
def mouse_focus_changed_callback (fuel : Nat) (d : Dialog) : Option Dialog :=
  run_handler fuel Handler.mouse_focus_changed d

/-- The handler `mouse_focus_toggled_callback` together with everything
it sets off. -/
def mouse_focus_toggled_callback (fuel : Nat) (d : Dialog) : Option Dialog :=
  run_handler fuel Handler.mouse_focus_toggled d

/-- Another process writes `mode` to the key `focus-mode`; the store then
notifies the capplet. -/
def external_focus_write (fuel : Nat) (mode : FocusMode) (d : Dialog) : Option Dialog :=
  mouse_focus_changed_callback fuel
    { d with settings := { d.settings with focus_mode := mode } }

/-! ## The auto-raise delay slider -/

/-- Rounding of a rational to the nearest integer, a tie going to the even
neighbour. -/
def round_half_even (q : ℚ) : Int :=
  if q - ⌊q⌋ < 1 / 2 then ⌊q⌋
  else if 1 / 2 < q - ⌊q⌋ then ⌊q⌋ + 1
  else if ⌊q⌋ % 2 = 0 then ⌊q⌋
  else ⌊q⌋ + 1

/-- The exponent of the last bit of the doubles around `x`: an IEEE 754
double carries 53 significant bits, and its last bit has weight at least
2^-1074. -/
def double_ulp_exponent (x : ℚ) : Int :=
  max (Int.log 2 |x| - 52) (-1074)

/-- The IEEE 754 double nearest to `x` (round to nearest, ties to even), as
a rational. Overflow to infinity is left out: the values of the slider
arithmetic stay below 2^14. -/
def round_to_double (x : ℚ) : ℚ :=
  (round_half_even (x / (2 : ℚ) ^ double_ulp_exponent x) : ℚ) *
    (2 : ℚ) ^ double_ulp_exponent x

/-- The product of two doubles in C: the exact product rounded to a
double. -/
def double_mul (a b : ℚ) : ℚ :=
  round_to_double (a * b)

/-- The quotient of two doubles in C: the exact quotient rounded to a
double. -/
def double_div (a b : ℚ) : ℚ :=
  round_to_double (a / b)

/-- The conversion of a double to `int` in C: the fractional part is
discarded (truncation toward zero). -/
def double_to_int (x : ℚ) : Int :=
  if 0 ≤ x then ⌊x⌋ else ⌈x⌉

/-- The handler `autoraise_delay_value_changed_callback`: the product
`gtk_range_get_value (slider) * 1000` is a product of doubles and is passed
to `g_settings_set_int`, whose parameter is an `int`. -/
def autoraise_delay_value_changed_callback (d : Dialog) : Dialog :=
  { d with settings := { d.settings with
      auto_raise_delay := double_to_int (double_mul d.widgets.slider_value 1000) } }

/-- The call `gtk_range_set_range (slider, min, max)`: the bounds are set
and the current value is clamped into them. -/
def gtk_range_set_range (lower upper : ℚ) (w : Widgets) : Widgets :=
  { w with slider_lower := lower, slider_upper := upper,
           slider_value := max lower (min w.slider_value upper) }

/-- The call `gtk_range_set_value (slider, value)`: the value is clamped
into the range of the slider. -/
def gtk_range_set_value (value : ℚ) (w : Widgets) : Widgets :=
  { w with slider_value := max w.slider_lower (min value w.slider_upper) }

/-- The slider set-up of `main`: the range (0, 10) and then the position
`g_settings_get_int (auto-raise-delay) / 1000.0`, a quotient of doubles
(the `int` converts to a double exactly). The `value_changed` handler is
connected only later, so nothing is written back here. -/
def init_autoraise_delay_slider (d : Dialog) : Dialog :=
  let w1 := gtk_range_set_range 0 10 d.widgets
  let w2 := gtk_range_set_value (double_div (d.settings.auto_raise_delay : ℚ) 1000) w1
  { d with widgets := w2 }

/-! ## Modifier detection -/

/-- An X keysym. -/
abbrev KeySym := Nat

/-- The keysym XK_Meta_L of the X11 header keysymdef.h. -/
def XK_Meta_L : KeySym := 0xffe7
/-- The keysym XK_Meta_R of the X11 header keysymdef.h. -/
def XK_Meta_R : KeySym := 0xffe8
/-- The keysym XK_Super_L of the X11 header keysymdef.h. -/
def XK_Super_L : KeySym := 0xffeb
/-- The keysym XK_Super_R of the X11 header keysymdef.h. -/
def XK_Super_R : KeySym := 0xffec
/-- The keysym XK_Hyper_L of the X11 header keysymdef.h. -/
def XK_Hyper_L : KeySym := 0xffed
/-- The keysym XK_Hyper_R of the X11 header keysymdef.h. -/
def XK_Hyper_R : KeySym := 0xffee

/-- The mask Mod1Mask of the X11 header X.h, `1 << 3`. -/
def Mod1Mask : Nat := 1 <<< 3

/-- The struct `XModifierKeymap` of Xlib: `modifiermap` holds
`8 * max_keypermod` keycodes, `max_keypermod` for each of the 8 modifier
positions, and 0 in an unused slot. -/
structure XModifierKeymap where
  max_keypermod : Nat
  modifiermap : List Nat
  deriving DecidableEq, Repr

/-- What the three Xlib calls at the head of `reload_mouse_modifiers` hand
to the rest of the function: the keycode range, the keysym table `keymap`
with its row width, and the modifier map. -/
structure KeyboardData where
  min_keycode : Nat
  max_keycode : Nat
  keysyms_per_keycode : Nat
  keymap : List KeySym
  modmap : XModifierKeymap
  deriving DecidableEq, Repr

/-- The keyboard state of the X server: the keycode range, the keysyms of
every keycode of the range (`keysyms_per_keycode` per keycode, in keycode
order), and the modifier map. -/
structure XServer where
  min_keycode : Nat
  max_keycode : Nat
  keysyms_per_keycode : Nat
  keysyms : List KeySym
  modmap : XModifierKeymap
  deriving DecidableEq, Repr

/-- The Xlib call `XGetKeyboardMapping (dpy, first_keycode, keycode_count,
&keysyms_per_keycode)`: the keysyms of `keycode_count` keycodes from
`first_keycode` on. -/
def XGetKeyboardMapping (x : XServer) (first_keycode keycode_count : Nat) :
    List KeySym :=
  (x.keysyms.drop ((first_keycode - x.min_keycode) * x.keysyms_per_keycode)).take
    (keycode_count * x.keysyms_per_keycode)

/-- The three Xlib calls of `reload_mouse_modifiers`, with the arguments
the source passes: the table is requested for `max_keycode - min_keycode`
keycodes from `min_keycode`. -/
def fetch_keyboard (x : XServer) : KeyboardData :=
  { min_keycode := x.min_keycode
    max_keycode := x.max_keycode
    keysyms_per_keycode := x.keysyms_per_keycode
    keymap := XGetKeyboardMapping x x.min_keycode (x.max_keycode - x.min_keycode)
    modmap := x.modmap }

/-- The three locals `mod_meta`, `mod_super`, `mod_hyper`. -/
structure ModBits where
  mod_meta : Nat
  mod_super : Nat
  mod_hyper : Nat
  deriving DecidableEq, Repr

/-- The `if / else if / else if` chain on `syms[j]`, with `pos` the value
`i / modmap->max_keypermod`. A read past the end of the table (`none`) is
undefined in C; here it yields no keysym and changes nothing. -/
def match_sym (pos : Nat) (sym : Option KeySym) (b : ModBits) : ModBits :=
  match sym with
  | none => b
  | some s =>
    if s = XK_Super_L ∨ s = XK_Super_R then
      { b with mod_super := pos }
    else if s = XK_Hyper_L ∨ s = XK_Hyper_R then
      { b with mod_hyper := pos }
    else if s = XK_Meta_L ∨ s = XK_Meta_R then
      { b with mod_meta := pos }
    else
      b

/-- The inner loop `while (j < keysyms_per_keycode)`, with `n` iterations
left, on the row `syms = keymap + base`. -/
def scan_syms (keymap : List KeySym) (base pos : Nat) : Nat → Nat → ModBits → ModBits
  | 0, _, b => b
  | n + 1, j, b => scan_syms keymap base pos n (j + 1) (match_sym pos keymap[base + j]? b)

/-- The body of the outer loop at index `i` of the modifier map. -/
def scan_keycode (k : KeyboardData) (i : Nat) (b : ModBits) : ModBits :=
  let keycode := k.modmap.modifiermap.getD i 0
  if k.min_keycode ≤ keycode ∧ keycode ≤ k.max_keycode then
    scan_syms k.keymap ((keycode - k.min_keycode) * k.keysyms_per_keycode)
      (i / k.modmap.max_keypermod) k.keysyms_per_keycode 0 b
  else
    b

/-- The outer loop `while (i < map_size)`, with `n` iterations left. -/
def scan_modmap (k : KeyboardData) : Nat → Nat → ModBits → ModBits
  | 0, _, b => b
  | n + 1, i, b => scan_modmap k n (i + 1) (scan_keycode k i b)

/-- The scan of `reload_mouse_modifiers`: `map_size = 8 * max_keypermod`,
`i` starts at `3 * max_keypermod`, the three positions start at 0. -/
def detect_modifiers (k : KeyboardData) : ModBits :=
  let map_size := 8 * k.modmap.max_keypermod
  let i := 3 * k.modmap.max_keypermod
  scan_modmap k (map_size - i) i { mod_meta := 0, mod_super := 0, mod_hyper := 0 }

/-- The three flags `have_meta`, `have_super`, `have_hyper`. -/
structure Presence where
  have_meta : Bool
  have_super : Bool
  have_hyper : Bool
  deriving DecidableEq, Repr

/-- The classification of `reload_mouse_modifiers`: the three `if`
statements after the scan; every flag starts FALSE. -/
def classify (b : ModBits) : Presence :=
  let have_meta := decide ((1 <<< b.mod_meta) ≠ Mod1Mask)
  let have_super := decide (b.mod_super ≠ 0 ∧ b.mod_super ≠ b.mod_meta)
  let have_hyper := decide (b.mod_hyper ≠ 0 ∧ b.mod_hyper ≠ b.mod_meta ∧
    b.mod_hyper ≠ b.mod_super)
  { have_meta := have_meta, have_super := have_super, have_hyper := have_hyper }

/-- The function `reload_mouse_modifiers` after its Xlib calls: scan,
classification, and the new option list with its radios. -/
def reload_from_keyboard (k : KeyboardData) : List MouseClickModifier :=
  let p := classify (detect_modifiers k)
  mouse_modifiers_of_flags p.have_hyper p.have_super p.have_meta

/-- The function `reload_mouse_modifiers`. -/
def reload_mouse_modifiers (x : XServer) : List MouseClickModifier :=
  reload_from_keyboard (fetch_keyboard x)

/-! ### The vocabulary of the scan's specification -/

/-- The three keysym families the scan looks for. -/
inductive Family where
  | Super
  | Hyper
  | Meta
  deriving DecidableEq, Repr

/-- Whether a keysym is the left or right keysym of a family. -/
def Family.has_sym (f : Family) (s : KeySym) : Bool :=
  match f with
  | Family.Super => decide (s = XK_Super_L ∨ s = XK_Super_R)
  | Family.Hyper => decide (s = XK_Hyper_L ∨ s = XK_Hyper_R)
  | Family.Meta => decide (s = XK_Meta_L ∨ s = XK_Meta_R)

/-- The detected position of a family. -/
def Family.position (f : Family) (b : ModBits) : Nat :=
  match f with
  | Family.Super => b.mod_super
  | Family.Hyper => b.mod_hyper
  | Family.Meta => b.mod_meta

/-- The storage value of the option of a family. -/
def Family.value (f : Family) : String :=
  match f with
  | Family.Super => "Super"
  | Family.Hyper => "Hyper"
  | Family.Meta => "Meta"

/-- Whether an entry read from the keysym table is a keysym of the family;
a read past the end of the table yields no keysym. -/
def Family.has_entry (f : Family) (sym : Option KeySym) : Bool :=
  match sym with
  | some s => f.has_sym s
  | none => false

/-- Whether the keycode at index `i` of the modifier map lies in the keycode
range and has a keysym of family `f` among the `keysyms_per_keycode`
entries of its row of the table. -/
def index_matches (k : KeyboardData) (f : Family) (i : Nat) : Bool :=
  let keycode := k.modmap.modifiermap.getD i 0
  decide (k.min_keycode ≤ keycode ∧ keycode ≤ k.max_keycode) &&
    (List.range k.keysyms_per_keycode).any (fun j =>
      f.has_entry k.keymap[(keycode - k.min_keycode) * k.keysyms_per_keycode + j]?)

/-- Whether modifier position `p` has a slot (one of its `max_keypermod`
entries of the modifier map) that matches family `f`. -/
def position_matches (k : KeyboardData) (f : Family) (p : Nat) : Bool :=
  (List.range k.modmap.max_keypermod).any (fun s =>
    index_matches k f (p * k.modmap.max_keypermod + s))

/-- The highest position among 7, 6, 5, 4, 3 that matches family `f`, and 0
when none does: the scan result as the specification words it. -/
def highest_position (k : KeyboardData) (f : Family) : Nat :=
  ([7, 6, 5, 4, 3].find? (fun p => position_matches k f p)).getD 0

/-- The keyboard data with another modifier map array. -/
def with_modifiermap (k : KeyboardData) (l : List Nat) : KeyboardData :=
  { k with modmap := { k.modmap with modifiermap := l } }

/-! ## States used in the statements -/

/-- The keysym XK_Shift_L of the X11 header keysymdef.h. -/
def XK_Shift_L : KeySym := 0xffe1
/-- The keysym XK_Control_L of the X11 header keysymdef.h. -/
def XK_Control_L : KeySym := 0xffe3
/-- The keysym XK_Alt_L of the X11 header keysymdef.h. -/
def XK_Alt_L : KeySym := 0xffe9

/-- A keyboard with keycodes 8..13, one keysym per keycode: Shift_L,
Control_L, Alt_L, Super_L, Meta_L, and a last key without keysym. Two slots
per modifier position: Shift holds keycode 8, Control 9, Mod1 holds both
Alt_L (10) and Super_L (11), Mod3 holds Meta_L (12). -/
def super_on_mod1 : XServer :=
  { min_keycode := 8
    max_keycode := 13
    keysyms_per_keycode := 1
    keysyms := [XK_Shift_L, XK_Control_L, XK_Alt_L, XK_Super_L, XK_Meta_L, 0]
    modmap :=
      { max_keypermod := 2
        modifiermap := [8, 0, 0, 0, 9, 0, 10, 11, 0, 0, 12, 0, 0, 0, 0, 0] } }

/-- A keyboard with keycodes 8..12, one keysym per keycode: Shift_L,
Control_L, Alt_L, Super_L, and a last key without keysym; no key carries a
Meta keysym. One slot per modifier position: Shift holds keycode 8,
Control 9, Mod1 holds Alt_L (10), Mod4 holds Super_L (11). -/
def no_meta_key : XServer :=
  { min_keycode := 8
    max_keycode := 12
    keysyms_per_keycode := 1
    keysyms := [XK_Shift_L, XK_Control_L, XK_Alt_L, XK_Super_L, 0]
    modmap :=
      { max_keypermod := 1
        modifiermap := [8, 0, 9, 10, 0, 0, 11, 0] } }

/-- A keyboard with keycodes 8..12, one keysym per keycode: Shift_L,
Control_L, Alt_L, a key without keysym, and Super_L on the last keycode 12.
One slot per modifier position: Shift holds keycode 8, Control 9, Mod1
holds Alt_L (10), Mod4 holds Super_L (12 = max_keycode). -/
def super_on_last_keycode : XServer :=
  { min_keycode := 8
    max_keycode := 12
    keysyms_per_keycode := 1
    keysyms := [XK_Shift_L, XK_Control_L, XK_Alt_L, 0, XK_Super_L]
    modmap :=
      { max_keypermod := 1
        modifiermap := [8, 0, 9, 10, 0, 0, 12, 0] } }

/-- A dialog with the slider moved to position `s`. -/
def with_slider (d : Dialog) (s : ℚ) : Dialog :=
  { d with widgets := { d.widgets with slider_value := s } }

/-- A dialog whose store holds `m` under `auto-raise-delay`. -/
def with_delay (d : Dialog) (m : Int) : Dialog :=
  { d with settings := { d.settings with auto_raise_delay := m } }

/-- A store: sloppy focus, auto-raise off, delay 500 ms, modifier Alt. -/
def sample_settings : Settings :=
  { focus_mode := FocusMode.sloppy
    auto_raise := false
    auto_raise_delay := 500
    mouse_button_modifier := "<Alt>"
    action_double_click_titlebar := 1
    compositing_manager := true
    compositing_fast_alt_tab := false }

/-- A dialog in step with `sample_settings`: the focus-mode check button is
on, the slider stands at 0.5 in the range (0, 10). -/
def sample_dialog : Dialog :=
  { settings := sample_settings
    widgets :=
      { compositing_fast_alt_tab_sensitive := true
        autoraise_sensitive := true
        autoraise_delay_hbox_sensitive := false
        focus_mode_active := true
        slider_lower := 0
        slider_upper := 10
        slider_value := 1 / 2 } }

/-! ## Theorems -/

/-- C1: for every combination of the three presence flags, the option list
built by `reload_mouse_modifiers` has as storage values exactly the
subsequence of [Alt, Hyper, Super, Meta] that keeps Alt and the modifiers
flagged present; the entries are numbered 0, 1, 2, ... and there are
`n_mouse_modifiers` of them (the assertion of the source); Alt is always
the first option; with all three flags set the list is exactly
[Alt, Hyper, Super, Meta]. -/
theorem option_list_of_flags (have_hyper have_super have_meta : Bool) :
    values (mouse_modifiers_of_flags have_hyper have_super have_meta) =
        ["Alt", "Hyper", "Super", "Meta"].filter (fun v =>
          v == "Alt" || (v == "Hyper" && have_hyper) || (v == "Super" && have_super)
            || (v == "Meta" && have_meta)) ∧
      (values (mouse_modifiers_of_flags have_hyper have_super have_meta)).head? =
        some "Alt" ∧
      (mouse_modifiers_of_flags have_hyper have_super have_meta).map (fun m => m.number) =
        List.range (count_mouse_modifiers have_hyper have_super have_meta) ∧
      (mouse_modifiers_of_flags have_hyper have_super have_meta).length =
        count_mouse_modifiers have_hyper have_super have_meta ∧
      values (mouse_modifiers_of_flags true true true) =
        ["Alt", "Hyper", "Super", "Meta"] := by
  cases have_hyper <;> cases have_super <;> cases have_meta <;> decide

/-- C2: for every state of the store and of the widgets, after
`update_sensitivity` the fast-alt-tab control is enabled iff
compositing-manager is true, the auto-raise toggle is enabled iff focus-mode
is not click, the delay control is enabled iff focus-mode is not click and
auto-raise is true; the store is not written, and the three results do not
depend on the previous widget state. Hence compositing=false disables
fast-alt-tab whatever compositing-fast-alt-tab holds, focus-mode=click
disables both auto-raise controls, and focus-mode=sloppy with
auto-raise=false enables the toggle and disables the delay control. -/
theorem update_sensitivity_rules (d : Dialog) :
    ((update_sensitivity d).widgets.compositing_fast_alt_tab_sensitive = true ↔
        d.settings.compositing_manager = true) ∧
      ((update_sensitivity d).widgets.autoraise_sensitive = true ↔
        d.settings.focus_mode ≠ FocusMode.click) ∧
      ((update_sensitivity d).widgets.autoraise_delay_hbox_sensitive = true ↔
        (d.settings.focus_mode ≠ FocusMode.click ∧ d.settings.auto_raise = true)) ∧
      (update_sensitivity d).settings = d.settings ∧
      (∀ w : Widgets,
        (update_sensitivity { settings := d.settings, widgets := w }).widgets.compositing_fast_alt_tab_sensitive
            = (update_sensitivity d).widgets.compositing_fast_alt_tab_sensitive ∧
          (update_sensitivity { settings := d.settings, widgets := w }).widgets.autoraise_sensitive
            = (update_sensitivity d).widgets.autoraise_sensitive ∧
          (update_sensitivity { settings := d.settings, widgets := w }).widgets.autoraise_delay_hbox_sensitive
            = (update_sensitivity d).widgets.autoraise_delay_hbox_sensitive) ∧
      (d.settings.compositing_manager = false →
        (update_sensitivity d).widgets.compositing_fast_alt_tab_sensitive = false) ∧
      (d.settings.focus_mode = FocusMode.click →
        (update_sensitivity d).widgets.autoraise_sensitive = false ∧
          (update_sensitivity d).widgets.autoraise_delay_hbox_sensitive = false) ∧
      (d.settings.focus_mode = FocusMode.sloppy → d.settings.auto_raise = false →
        (update_sensitivity d).widgets.autoraise_sensitive = true ∧
          (update_sensitivity d).widgets.autoraise_delay_hbox_sensitive = false) := by
  refine ⟨?_, ?_, ?_, rfl, ?_, ?_, ?_, ?_⟩
  · simp [update_sensitivity]
  · simp [update_sensitivity]
  · simp [update_sensitivity]
  · intro w
    simp [update_sensitivity]
  · intro h
    simp [update_sensitivity, h]
  · intro h
    simp [update_sensitivity, h]
  · intro h1 h2
    simp [update_sensitivity, h1, h2]

/-- C3 (counterexample): the check button is on and the store holds sloppy;
another process writes mouse. The change handler switches the button off,
the `toggled` handler fires and writes click: the store ends with click, not
mouse. -/
theorem external_mouse_overwritten_by_click :
    sample_dialog.widgets.focus_mode_active = true ∧
      ∃ d, external_focus_write 3 FocusMode.mouse sample_dialog = some d ∧
        d.widgets.focus_mode_active = false ∧
        d.settings.focus_mode = FocusMode.click ∧
        d.settings.focus_mode ≠ FocusMode.mouse := by
  refine ⟨rfl, ?_⟩
  refine ⟨_, rfl, ?_, ?_, ?_⟩ <;> decide

/-- C3 (amended): for every prior state of the dialog and every fuel of at
least 3, when focus-mode is set externally to mouse and the notification is
handled, the handlers finish and the check button ends up off. When the
button was off before, nothing is written and the store still holds mouse;
when it was on, its state changes, `mouse_focus_toggled_callback` fires and
the store ends with click. No other key is written. -/
theorem external_mouse_write (n : Nat) (d : Dialog) :
    ∃ d1, external_focus_write (n + 3) FocusMode.mouse d = some d1 ∧
      d1.widgets.focus_mode_active = false ∧
      d1.settings.focus_mode =
        (if d.widgets.focus_mode_active = true then FocusMode.click else FocusMode.mouse) ∧
      d1.settings = { d.settings with focus_mode := d1.settings.focus_mode } := by
  cases hact : d.widgets.focus_mode_active
  · simp [external_focus_write, mouse_focus_changed_callback, run_handler,
        marco_settings_changed_callback, update_sensitivity, hact]
  · simp [external_focus_write, mouse_focus_changed_callback, run_handler,
        marco_settings_changed_callback, update_sensitivity, hact]

/-- C4: for every option list the detector produces (any flags) and every
stored string, `set_alt_click_value` does the following. If the string is
"<" + value + ">" for an option of the list, then afterwards exactly the
radio of that option is active and no radio is inconsistent. If the
string is "<" + value + ">" for no option, the active flags are what they
were (no radio is set active) and every radio is inconsistent. The values of
the list are pairwise different, so the option is determined by its value.
In particular "<Super>" selects the Super radio whenever Super is in the
list, and "<Foo>" selects nothing and marks every radio inconsistent. -/
theorem set_alt_click_value_selects (have_hyper have_super have_meta : Bool)
    (str : String) :
    (∀ v ∈ values (mouse_modifiers_of_flags have_hyper have_super have_meta),
        str = "<" ++ v ++ ">" →
        active_flags (set_alt_click_value (some str)
            (mouse_modifiers_of_flags have_hyper have_super have_meta)) =
          (values (mouse_modifiers_of_flags have_hyper have_super have_meta)).map
            (fun w => some (decide (w = v))) ∧
        inconsistent_flags (set_alt_click_value (some str)
            (mouse_modifiers_of_flags have_hyper have_super have_meta)) =
          (values (mouse_modifiers_of_flags have_hyper have_super have_meta)).map
            (fun _ => some false)) ∧
      ((∀ v ∈ values (mouse_modifiers_of_flags have_hyper have_super have_meta),
          str ≠ "<" ++ v ++ ">") →
        active_flags (set_alt_click_value (some str)
            (mouse_modifiers_of_flags have_hyper have_super have_meta)) =
          active_flags (mouse_modifiers_of_flags have_hyper have_super have_meta) ∧
        inconsistent_flags (set_alt_click_value (some str)
            (mouse_modifiers_of_flags have_hyper have_super have_meta)) =
          (values (mouse_modifiers_of_flags have_hyper have_super have_meta)).map
            (fun _ => some true)) ∧
      (values (mouse_modifiers_of_flags have_hyper have_super have_meta)).Nodup ∧
      (active_flags (set_alt_click_value (some "<Super>")
            (mouse_modifiers_of_flags have_hyper true have_meta)) =
          (values (mouse_modifiers_of_flags have_hyper true have_meta)).map
            (fun w => some (decide (w = "Super"))) ∧
        inconsistent_flags (set_alt_click_value (some "<Super>")
            (mouse_modifiers_of_flags have_hyper true have_meta)) =
          (values (mouse_modifiers_of_flags have_hyper true have_meta)).map
            (fun _ => some false)) ∧
      (active_flags (set_alt_click_value (some "<Foo>")
            (mouse_modifiers_of_flags have_hyper have_super have_meta)) =
          active_flags (mouse_modifiers_of_flags have_hyper have_super have_meta) ∧
        inconsistent_flags (set_alt_click_value (some "<Foo>")
            (mouse_modifiers_of_flags have_hyper have_super have_meta)) =
          (values (mouse_modifiers_of_flags have_hyper have_super have_meta)).map
            (fun _ => some true)) := by
  refine ⟨?_, ?_, ?_, ?_, ?_⟩
  · intro v hv hstr
    subst hstr
    cases have_hyper <;> cases have_super <;> cases have_meta <;>
      simp [values, mouse_modifiers_of_flags, build_mouse_modifiers, add_modifier,
        fill_radios, fill_radio] at hv <;>
      rcases hv with rfl | rfl | rfl | rfl <;> decide
  · intro hne
    cases have_hyper <;> cases have_super <;> cases have_meta <;>
      simp [values, mouse_modifiers_of_flags, build_mouse_modifiers, add_modifier,
        fill_radios, fill_radio] at hne <;>
      simp [values, mouse_modifiers_of_flags, build_mouse_modifiers, add_modifier,
        fill_radios, fill_radio, set_alt_click_value, find_modifier, bracketed,
        set_all_inconsistent, active_flags, inconsistent_flags, Ne.symm, hne]
  · cases have_hyper <;> cases have_super <;> cases have_meta <;> decide
  · cases have_hyper <;> cases have_meta <;> decide
  · cases have_hyper <;> cases have_super <;> cases have_meta <;> decide

/-- C5: for every option list the detector produces and every option `m`
of it, the `toggled` handler of the radio of `m` writes exactly
"<" + value + ">" under mouse-button-modifier when the radio has become
active and leaves every other key as it was, and writes nothing when the
radio has become inactive; `set_alt_click_value` on the string then stored,
run on the fresh list or on the list in which the user has just activated
that radio, leaves exactly the radio of `m` active and no radio
inconsistent. -/
theorem modifier_round_trip (have_hyper have_super have_meta : Bool) (s : Settings)
    (m : MouseClickModifier)
    (hm : m ∈ mouse_modifiers_of_flags have_hyper have_super have_meta) :
    alt_click_radio_toggled_callback true m s =
        { s with mouse_button_modifier := "<" ++ m.value ++ ">" } ∧
      alt_click_radio_toggled_callback false m s = s ∧
      active_flags (set_alt_click_value
          (get_mouse_button_modifier (alt_click_radio_toggled_callback true m s))
          (mouse_modifiers_of_flags have_hyper have_super have_meta)) =
        (values (mouse_modifiers_of_flags have_hyper have_super have_meta)).map
          (fun w => some (decide (w = m.value))) ∧
      inconsistent_flags (set_alt_click_value
          (get_mouse_button_modifier (alt_click_radio_toggled_callback true m s))
          (mouse_modifiers_of_flags have_hyper have_super have_meta)) =
        (values (mouse_modifiers_of_flags have_hyper have_super have_meta)).map
          (fun _ => some false) ∧
      active_flags (set_alt_click_value
          (get_mouse_button_modifier (alt_click_radio_toggled_callback true m s))
          (radio_set_active m.number 0
            (mouse_modifiers_of_flags have_hyper have_super have_meta))) =
        (values (mouse_modifiers_of_flags have_hyper have_super have_meta)).map
          (fun w => some (decide (w = m.value))) := by
  refine ⟨rfl, rfl, ?_⟩
  simp only [get_mouse_button_modifier, alt_click_radio_toggled_callback, if_true]
  cases have_hyper <;> cases have_super <;> cases have_meta <;>
    simp [mouse_modifiers_of_flags, build_mouse_modifiers, add_modifier,
      fill_radios, fill_radio] at hm <;>
    rcases hm with rfl | rfl | rfl | rfl <;> decide

/-- C5 (witness): the round trip for the Super option of the list
[Alt, Super]. -/
theorem modifier_round_trip_witness :
    ({ number := 1, name := "S_uper (or \"Windows logo\")", value := "Super",
        radio := some { active := false, inconsistent := false } } : MouseClickModifier)
        ∈ mouse_modifiers_of_flags false true false ∧
      (alt_click_radio_toggled_callback true
          { number := 1, name := "S_uper (or \"Windows logo\")", value := "Super",
            radio := some { active := false, inconsistent := false } }
          sample_settings).mouse_button_modifier = "<Super>" ∧
      active_flags (set_alt_click_value (some "<Super>")
          (mouse_modifiers_of_flags false true false)) = [some false, some true] :=
  ⟨by decide, by decide,
    (modifier_round_trip false true false sample_settings
      { number := 1, name := "S_uper (or \"Windows logo\")", value := "Super",
        radio := some { active := false, inconsistent := false } } (by decide)).2.2.1⟩

/-! ### Double arithmetic -/

/-- Rounding to nearest does not go below the floor. -/
theorem floor_le_round_half_even (q : ℚ) : ⌊q⌋ ≤ round_half_even q := by
  unfold round_half_even
  split_ifs <;> omega

/-- Rounding to nearest does not go above the ceiling. -/
theorem round_half_even_le_ceil (q : ℚ) : round_half_even q ≤ ⌈q⌉ := by
  have hfc : ⌊q⌋ ≤ ⌈q⌉ := Int.floor_le_ceil q
  by_cases hq : (⌊q⌋ : ℚ) = q
  · have h0 : q - ⌊q⌋ < 1 / 2 := by
      rw [hq]
      norm_num
    unfold round_half_even
    rw [if_pos h0]
    exact hfc
  · have hlt : (⌊q⌋ : ℚ) < q := lt_of_le_of_ne (Int.floor_le q) hq
    have hc : ⌊q⌋ + 1 ≤ ⌈q⌉ := by
      have : ((⌊q⌋ : Int) : ℚ) < ((⌈q⌉ : Int) : ℚ) := lt_of_lt_of_le hlt (Int.le_ceil q)
      have : ⌊q⌋ < ⌈q⌉ := Int.cast_lt.mp this
      omega
    unfold round_half_even
    split_ifs <;> omega

/-- Rounding to nearest moves a value by at most one half. -/
theorem round_half_even_near (q : ℚ) : |(round_half_even q : ℚ) - q| ≤ 1 / 2 := by
  have h1 : (⌊q⌋ : ℚ) ≤ q := Int.floor_le q
  have h2 : q < (⌊q⌋ : ℚ) + 1 := Int.lt_floor_add_one q
  rw [abs_le]
  unfold round_half_even
  split_ifs with a b c <;> push_cast <;> constructor <;> linarith

/-- A value below 2^(k+1) has its last double bit at exponent at most
k - 52. -/
theorem ulp_exponent_le (x : ℚ) (k : Int) (hk : 0 ≤ k) (hx : |x| < (2 : ℚ) ^ (k + 1)) :
    double_ulp_exponent x ≤ max (k - 52) (-1074) := by
  have hlog : Int.log 2 |x| ≤ k := by
    rcases (abs_nonneg x).eq_or_lt with h0 | hpos
    · rw [← h0, Int.log_of_right_le_zero 2 (le_refl (0 : ℚ))]
      exact hk
    · have h := (Int.lt_zpow_iff_log_lt (b := 2) (by norm_num) hpos (x := k + 1)).1
        (by simpa using hx)
      omega
  unfold double_ulp_exponent
  omega

/-- An integer is a multiple of 2^e when e is not positive. -/
theorem int_on_grid (n e : Int) (he : e ≤ 0) :
    ∃ K : Int, (K : ℚ) = (n : ℚ) / (2 : ℚ) ^ e := by
  obtain ⟨k, hk⟩ := Int.eq_ofNat_of_zero_le (show 0 ≤ -e by omega)
  refine ⟨n * 2 ^ k, ?_⟩
  have he2 : e = -(k : Int) := by omega
  rw [he2, zpow_neg, zpow_natCast]
  push_cast
  field_simp

/-- Rounding to a double does not cross an integer from above, as long as
integers are doubles at this magnitude. -/
theorem le_round_to_double (n : Int) (x : ℚ) (he : double_ulp_exponent x ≤ 0)
    (h : (n : ℚ) ≤ x) : (n : ℚ) ≤ round_to_double x := by
  obtain ⟨K, hK⟩ := int_on_grid n (double_ulp_exponent x) he
  have hpos : (0 : ℚ) < (2 : ℚ) ^ double_ulp_exponent x := by positivity
  have hle : (K : ℚ) ≤ x / (2 : ℚ) ^ double_ulp_exponent x := by
    rw [hK]
    exact div_le_div_of_nonneg_right h hpos.le
  have hK2 : K ≤ round_half_even (x / (2 : ℚ) ^ double_ulp_exponent x) :=
    (Int.le_floor.mpr hle).trans (floor_le_round_half_even _)
  have hn : (n : ℚ) = (K : ℚ) * (2 : ℚ) ^ double_ulp_exponent x := by
    rw [hK]
    field_simp
  rw [hn]
  unfold round_to_double
  exact mul_le_mul_of_nonneg_right (by exact_mod_cast hK2) hpos.le

/-- Rounding to a double does not cross an integer from below, as long as
integers are doubles at this magnitude. -/
theorem round_to_double_le (n : Int) (x : ℚ) (he : double_ulp_exponent x ≤ 0)
    (h : x ≤ (n : ℚ)) : round_to_double x ≤ (n : ℚ) := by
  obtain ⟨K, hK⟩ := int_on_grid n (double_ulp_exponent x) he
  have hpos : (0 : ℚ) < (2 : ℚ) ^ double_ulp_exponent x := by positivity
  have hle : x / (2 : ℚ) ^ double_ulp_exponent x ≤ (K : ℚ) := by
    rw [hK]
    exact div_le_div_of_nonneg_right h hpos.le
  have hK2 : round_half_even (x / (2 : ℚ) ^ double_ulp_exponent x) ≤ K :=
    (round_half_even_le_ceil _).trans (Int.ceil_le.mpr hle)
  have hn : (n : ℚ) = (K : ℚ) * (2 : ℚ) ^ double_ulp_exponent x := by
    rw [hK]
    field_simp
  rw [hn]
  unfold round_to_double
  exact mul_le_mul_of_nonneg_right (by exact_mod_cast hK2) hpos.le

/-- Rounding to a double moves a value by at most half a unit of the last
bit. -/
theorem round_to_double_near (x : ℚ) :
    |round_to_double x - x| ≤ (2 : ℚ) ^ double_ulp_exponent x / 2 := by
  have hpos : (0 : ℚ) < (2 : ℚ) ^ double_ulp_exponent x := by positivity
  have h := round_half_even_near (x / (2 : ℚ) ^ double_ulp_exponent x)
  have hx : round_to_double x - x =
      ((round_half_even (x / (2 : ℚ) ^ double_ulp_exponent x) : ℚ) -
        x / (2 : ℚ) ^ double_ulp_exponent x) * (2 : ℚ) ^ double_ulp_exponent x := by
    unfold round_to_double
    field_simp
  rw [hx, abs_mul, abs_of_pos hpos]
  calc _ ≤ 1 / 2 * (2 : ℚ) ^ double_ulp_exponent x :=
        mul_le_mul_of_nonneg_right h hpos.le
    _ = (2 : ℚ) ^ double_ulp_exponent x / 2 := by ring

/-- An integer rounds to itself. -/
theorem round_half_even_intCast (K : Int) : round_half_even (K : ℚ) = K := by
  unfold round_half_even
  simp

/-- A multiple of the unit of its last bit is a double. -/
theorem round_to_double_exact (x : ℚ) (K : Int)
    (h : x / (2 : ℚ) ^ double_ulp_exponent x = (K : ℚ)) : round_to_double x = x := by
  have hpos : (0 : ℚ) < (2 : ℚ) ^ double_ulp_exponent x := by positivity
  unfold round_to_double
  rw [h, round_half_even_intCast, ← h]
  field_simp

/-- The exponent of the last bit of a normal value between 2^k and
2^(k+1). -/
theorem ulp_exponent_eq (x : ℚ) (k : Int) (hk : -1022 ≤ k) (h1 : (2 : ℚ) ^ k ≤ |x|)
    (h2 : |x| < (2 : ℚ) ^ (k + 1)) : double_ulp_exponent x = k - 52 := by
  have hpos : (0 : ℚ) < |x| := lt_of_lt_of_le (by positivity) h1
  have hlo : k ≤ Int.log 2 |x| :=
    (Int.zpow_le_iff_le_log (b := 2) (by norm_num) hpos).1 (by simpa using h1)
  have hhi : Int.log 2 |x| < k + 1 :=
    (Int.lt_zpow_iff_log_lt (b := 2) (by norm_num) hpos).1 (by simpa using h2)
  unfold double_ulp_exponent
  omega

/-- A value strictly within one half of an integer rounds to it. -/
theorem round_half_even_eq (q : ℚ) (N : Int) (h1 : (N : ℚ) - 1 / 2 < q)
    (h2 : q < (N : ℚ) + 1 / 2) : round_half_even q = N := by
  have h := abs_le.mp (round_half_even_near q)
  have hlt : ((round_half_even q - N : Int) : ℚ) < ((1 : Int) : ℚ) := by
    push_cast
    linarith [h.2]
  have hgt : (((-1 : Int)) : ℚ) < ((round_half_even q - N : Int) : ℚ) := by
    push_cast
    linarith [h.1]
  have a := Int.cast_lt.mp hlt
  have b := Int.cast_lt.mp hgt
  omega

/-- Two runs of the double arithmetic. At the double nearest to 0.3 the
exact product with 1000 lies below 300 and rounds up to the double 300, so
the handler stores 300. With 1001 stored, the startup position is the
double nearest to 1.001, whose product with 1000 rounds to a double below
1001, so the handler run at that position stores 1000. -/
theorem double_rounding_examples :
    round_to_double (3 / 10) = 5404319552844595 / 18014398509481984 ∧
      (5404319552844595 / 18014398509481984 : ℚ) * 1000 < 300 ∧
      double_to_int (double_mul (5404319552844595 / 18014398509481984) 1000) = 300 ∧
      double_div ((1001 : Int) : ℚ) 1000 = 2254051613498933 / 2251799813685248 ∧
      double_to_int (double_mul (double_div ((1001 : Int) : ℚ) 1000) 1000) = 1000 := by
  have e0 : double_ulp_exponent (3 / 10) = -2 - 52 :=
    ulp_exponent_eq _ _ (by norm_num) (by norm_num [abs_of_pos]) (by norm_num [abs_of_pos])
  have d0 : round_to_double (3 / 10) = 5404319552844595 / 18014398509481984 := by
    unfold round_to_double
    rw [e0, round_half_even_eq _ 5404319552844595 (by norm_num) (by norm_num)]
    norm_num
  have e1 : double_ulp_exponent ((5404319552844595 / 18014398509481984 : ℚ) * 1000)
      = 8 - 52 :=
    ulp_exponent_eq _ _ (by norm_num) (by norm_num [abs_of_pos]) (by norm_num [abs_of_pos])
  have d1 : round_to_double ((5404319552844595 / 18014398509481984 : ℚ) * 1000) = 300 := by
    unfold round_to_double
    rw [e1, round_half_even_eq _ 5277655813324800 (by norm_num) (by norm_num)]
    norm_num
  have e2 : double_ulp_exponent (((1001 : Int) : ℚ) / 1000) = 0 - 52 :=
    ulp_exponent_eq _ _ (by norm_num) (by norm_num [abs_of_pos]) (by norm_num [abs_of_pos])
  have d2 : double_div ((1001 : Int) : ℚ) 1000 = 2254051613498933 / 2251799813685248 := by
    unfold double_div round_to_double
    rw [e2, round_half_even_eq _ 4508103226997866 (by norm_num) (by norm_num)]
    norm_num
  have e3 : double_ulp_exponent ((2254051613498933 / 2251799813685248 : ℚ) * 1000)
      = 9 - 52 :=
    ulp_exponent_eq _ _ (by norm_num) (by norm_num [abs_of_pos]) (by norm_num [abs_of_pos])
  have d3 : round_to_double ((2254051613498933 / 2251799813685248 : ℚ) * 1000)
      = 8804889115230207 / 8796093022208 := by
    unfold round_to_double
    rw [e3, round_half_even_eq _ 8804889115230207 (by norm_num) (by norm_num)]
    norm_num
  refine ⟨d0, by norm_num, ?_, d2, ?_⟩
  · unfold double_to_int double_mul
    rw [d1, if_pos (by norm_num)]
    exact Int.floor_eq_iff.mpr (by norm_num)
  · rw [d2]
    unfold double_to_int double_mul
    rw [d3, if_pos (by norm_num)]
    exact Int.floor_eq_iff.mpr (by norm_num)

/-- C6 (counterexample): the slider position 1/1024 is a double in [0, 10],
and its product with 1000 is the double 125/128. The handler stores 0,
while round(s * 1000) = round(0.9765625) = 1. With 1 stored under
auto-raise-delay, the position set at startup is a double and not the
rational 1/1000. -/
theorem autoraise_delay_not_rounded :
    round_to_double (1 / 1024) = 1 / 1024 ∧
      (0 : ℚ) ≤ 1 / 1024 ∧ (1 / 1024 : ℚ) ≤ 10 ∧
      (autoraise_delay_value_changed_callback
        (with_slider sample_dialog (1 / 1024))).settings.auto_raise_delay = 0 ∧
      round ((1 / 1024 : ℚ) * 1000) = 1 ∧
      (autoraise_delay_value_changed_callback
        (with_slider sample_dialog (1 / 1024))).settings.auto_raise_delay ≠
          round ((1 / 1024 : ℚ) * 1000) ∧
      (init_autoraise_delay_slider (with_delay sample_dialog 1)).widgets.slider_value ≠
        ((1 : Int) : ℚ) / 1000 := by
  have e1 : double_ulp_exponent (1 / 1024) = -10 - 52 :=
    ulp_exponent_eq _ _ (by norm_num) (by norm_num [abs_of_pos]) (by norm_num [abs_of_pos])
  have d1 : round_to_double (1 / 1024) = 1 / 1024 := by
    apply round_to_double_exact _ (2 ^ 52)
    rw [e1]
    norm_num
  have e2 : double_ulp_exponent (125 / 128) = -1 - 52 :=
    ulp_exponent_eq _ _ (by norm_num) (by norm_num [abs_of_pos]) (by norm_num [abs_of_pos])
  have d2 : round_to_double (125 / 128) = 125 / 128 := by
    apply round_to_double_exact _ (125 * 2 ^ 46)
    rw [e2]
    norm_num
  have h1 : (autoraise_delay_value_changed_callback
      (with_slider sample_dialog (1 / 1024))).settings.auto_raise_delay = 0 := by
    simp only [autoraise_delay_value_changed_callback, with_slider, double_to_int, double_mul]
    have hp : (1 / 1024 : ℚ) * 1000 = 125 / 128 := by norm_num
    rw [hp, d2, if_pos (by norm_num), Int.floor_eq_iff]
    norm_num
  have h2 : round ((1 / 1024 : ℚ) * 1000) = 1 := by
    rw [round_eq, Int.floor_eq_iff]
    norm_num
  refine ⟨d1, by norm_num, by norm_num, h1, h2, ?_, ?_⟩
  · rw [h1, h2]
    decide
  · have e3 : double_ulp_exponent (1 / 1000) = -10 - 52 :=
      ulp_exponent_eq _ _ (by norm_num) (by norm_num [abs_of_pos]) (by norm_num [abs_of_pos])
    have hne : round_to_double (1 / 1000) ≠ 1 / 1000 := by
      intro h
      unfold round_to_double at h
      rw [e3] at h
      generalize round_half_even (1 / 1000 / (2 : ℚ) ^ (-10 - 52 : Int)) = N at h
      have h4 : (N : ℚ) * 1000 = ((4611686018427387904 : Int) : ℚ) := by
        have h5 : ((2 : ℚ) ^ (-10 - 52 : Int)) = 1 / 4611686018427387904 := by norm_num
        rw [h5] at h
        push_cast
        linarith
      have h6 : N * 1000 = 4611686018427387904 := by exact_mod_cast h4
      omega
    have h0 : (0 : ℚ) ≤ round_to_double (1 / 1000) := by
      have := le_round_to_double 0 (1 / 1000) (by rw [e3]; norm_num) (by norm_num)
      simpa using this
    have h10 : round_to_double (1 / 1000) ≤ 10 := by
      have := round_to_double_le 10 (1 / 1000) (by rw [e3]; norm_num) (by norm_num)
      simpa using this
    simp only [init_autoraise_delay_slider, with_delay, gtk_range_set_value,
      gtk_range_set_range, double_div, sample_dialog, sample_settings]
    rw [show ((1 : Int) : ℚ) / 1000 = 1 / 1000 by norm_num, min_eq_left h10, max_eq_right h0]
    exact hne

/-- C6 (amended): for every slider position s in [0, 10] the handler
stores the integer part of the double product s * 1000 (the fraction is cut
off, not rounded); the stored integer is floor(s * 1000) or
floor(s * 1000) + 1, lies in [0, 10000], and is round(s * 1000) whenever
s * 1000 is an integer. For every stored integer m in [0, 10000] the slider
position set at startup is the double nearest to m / 1000; it lies in
[0, 10] and differs from m / 1000 by at most 2^-50. -/
theorem autoraise_delay_binding (d : Dialog) (s : ℚ) (m : Int)
    (hs0 : 0 ≤ s) (hs1 : s ≤ 10) (hm0 : 0 ≤ m) (hm1 : m ≤ 10000) :
    (autoraise_delay_value_changed_callback (with_slider d s)).settings.auto_raise_delay
        = ⌊round_to_double (s * 1000)⌋ ∧
      (⌊s * 1000⌋ ≤
          (autoraise_delay_value_changed_callback (with_slider d s)).settings.auto_raise_delay ∧
        (autoraise_delay_value_changed_callback (with_slider d s)).settings.auto_raise_delay
          ≤ ⌊s * 1000⌋ + 1) ∧
      (0 ≤ (autoraise_delay_value_changed_callback (with_slider d s)).settings.auto_raise_delay ∧
        (autoraise_delay_value_changed_callback (with_slider d s)).settings.auto_raise_delay
          ≤ 10000) ∧
      (∀ n : Int, s * 1000 = (n : ℚ) →
        (autoraise_delay_value_changed_callback (with_slider d s)).settings.auto_raise_delay
          = round (s * 1000)) ∧
      (init_autoraise_delay_slider (with_delay d m)).widgets.slider_value
        = round_to_double ((m : ℚ) / 1000) ∧
      (0 ≤ (init_autoraise_delay_slider (with_delay d m)).widgets.slider_value ∧
        (init_autoraise_delay_slider (with_delay d m)).widgets.slider_value ≤ 10) ∧
      |(init_autoraise_delay_slider (with_delay d m)).widgets.slider_value - (m : ℚ) / 1000|
        ≤ 1 / 2 ^ 50 := by
  -- the product
  have hx0 : (0 : ℚ) ≤ s * 1000 := by positivity
  have hx1 : s * 1000 ≤ 10000 := by linarith
  have hex : double_ulp_exponent (s * 1000) ≤ 0 := by
    have h := ulp_exponent_le (s * 1000) 13 (by norm_num)
      (by rw [abs_of_nonneg hx0]; norm_num; linarith)
    have h2 : max ((13 : Int) - 52) (-1074) = -39 := by decide
    omega
  have hlo : ∀ n : Int, (n : ℚ) ≤ s * 1000 → (n : ℚ) ≤ round_to_double (s * 1000) :=
    fun n h => le_round_to_double n _ hex h
  have hhi : ∀ n : Int, s * 1000 ≤ (n : ℚ) → round_to_double (s * 1000) ≤ (n : ℚ) :=
    fun n h => round_to_double_le n _ hex h
  have hnonneg : (0 : ℚ) ≤ round_to_double (s * 1000) := by
    simpa using hlo 0 (by simpa using hx0)
  have hstored : (autoraise_delay_value_changed_callback
      (with_slider d s)).settings.auto_raise_delay = ⌊round_to_double (s * 1000)⌋ := by
    simp only [autoraise_delay_value_changed_callback, with_slider, double_to_int, double_mul]
    rw [if_pos hnonneg]
  have hfl : ⌊s * 1000⌋ ≤ ⌊round_to_double (s * 1000)⌋ :=
    Int.le_floor.mpr (hlo _ (Int.floor_le _))
  have hfu : ⌊round_to_double (s * 1000)⌋ ≤ ⌊s * 1000⌋ + 1 := by
    have h1 : round_to_double (s * 1000) ≤ ((⌊s * 1000⌋ + 1 : Int) : ℚ) :=
      hhi _ (by push_cast; exact (Int.lt_floor_add_one _).le)
    exact Int.cast_le.mp ((Int.floor_le _).trans h1)
  have hupper : ⌊round_to_double (s * 1000)⌋ ≤ 10000 := by
    have h1 : round_to_double (s * 1000) ≤ ((10000 : Int) : ℚ) :=
      hhi _ (by push_cast; exact hx1)
    exact Int.cast_le.mp ((Int.floor_le _).trans h1)
  -- the quotient
  have hq0 : (0 : ℚ) ≤ (m : ℚ) / 1000 := by
    have : (0 : ℚ) ≤ (m : ℚ) := by exact_mod_cast hm0
    positivity
  have hq1 : (m : ℚ) / 1000 ≤ 10 := by
    have : (m : ℚ) ≤ 10000 := by exact_mod_cast hm1
    rw [div_le_iff₀ (by norm_num)]
    linarith
  have heq : double_ulp_exponent ((m : ℚ) / 1000) ≤ -49 := by
    have h := ulp_exponent_le ((m : ℚ) / 1000) 3 (by norm_num)
      (by rw [abs_of_nonneg hq0]; norm_num; linarith)
    have h2 : max ((3 : Int) - 52) (-1074) = -49 := by decide
    omega
  have hp0 : (0 : ℚ) ≤ round_to_double ((m : ℚ) / 1000) := by
    simpa using le_round_to_double 0 _ (by omega) (by simpa using hq0)
  have hp1 : round_to_double ((m : ℚ) / 1000) ≤ 10 := by
    simpa using round_to_double_le 10 _ (by omega) (by simpa using hq1)
  have hpos : (init_autoraise_delay_slider (with_delay d m)).widgets.slider_value
      = round_to_double ((m : ℚ) / 1000) := by
    simp only [init_autoraise_delay_slider, with_delay, gtk_range_set_value,
      gtk_range_set_range, double_div]
    rw [min_eq_left hp1, max_eq_right hp0]
  have hnear : |round_to_double ((m : ℚ) / 1000) - (m : ℚ) / 1000| ≤ 1 / 2 ^ 50 := by
    have h1 := round_to_double_near ((m : ℚ) / 1000)
    have h2 : (2 : ℚ) ^ double_ulp_exponent ((m : ℚ) / 1000) ≤ (2 : ℚ) ^ (-49 : Int) :=
      zpow_le_zpow_right₀ (by norm_num) heq
    have h3 : (2 : ℚ) ^ (-49 : Int) / 2 = 1 / 2 ^ 50 := by norm_num
    linarith
  refine ⟨hstored, ?_, ?_, ?_, hpos, ?_, ?_⟩
  · rw [hstored]
    exact ⟨hfl, hfu⟩
  · rw [hstored]
    exact ⟨Int.floor_nonneg.mpr hnonneg, hupper⟩
  · intro n hn
    have h1 : round_to_double (s * 1000) = (n : ℚ) :=
      le_antisymm (hhi n hn.le) (hlo n hn.ge)
    rw [hstored, h1, hn, Int.floor_intCast, round_intCast]
  · rw [hpos]
    exact ⟨hp0, hp1⟩
  · rw [hpos]
    exact hnear

/-- C6 (witness): the slider at 2.5 and a stored 2500. -/
theorem autoraise_delay_binding_witness :
    ((0 : ℚ) ≤ 5 / 2 ∧ (5 / 2 : ℚ) ≤ 10 ∧ (0 : Int) ≤ 2500 ∧ (2500 : Int) ≤ 10000) ∧
      (autoraise_delay_value_changed_callback
        (with_slider sample_dialog (5 / 2))).settings.auto_raise_delay
          = round ((5 / 2 : ℚ) * 1000) ∧
      (init_autoraise_delay_slider (with_delay sample_dialog 2500)).widgets.slider_value
        = round_to_double (((2500 : Int) : ℚ) / 1000) :=
  ⟨⟨by norm_num, by norm_num, by norm_num, by norm_num⟩,
    (autoraise_delay_binding sample_dialog (5 / 2) 2500 (by norm_num) (by norm_num)
      (by norm_num) (by norm_num)).2.2.2.1 2500 (by norm_num),
    (autoraise_delay_binding sample_dialog (5 / 2) 2500 (by norm_num) (by norm_num)
      (by norm_num) (by norm_num)).2.2.2.2.1⟩

/-! ### The scan -/

/-- A keysym belongs to at most one of the three families. -/
theorem family_exclusive (s : KeySym) :
    ((s = XK_Super_L ∨ s = XK_Super_R) → ¬(s = XK_Hyper_L ∨ s = XK_Hyper_R)) ∧
      ((s = XK_Super_L ∨ s = XK_Super_R) → ¬(s = XK_Meta_L ∨ s = XK_Meta_R)) ∧
      ((s = XK_Hyper_L ∨ s = XK_Hyper_R) → ¬(s = XK_Meta_L ∨ s = XK_Meta_R)) := by
  refine ⟨?_, ?_, ?_⟩ <;>
    rintro (h | h) (h1 | h1) <;>
    (rw [h] at h1; revert h1; decide)

/-- One step of the chain: the position of a family becomes `pos` when the
entry is a keysym of the family and is unchanged otherwise. -/
theorem position_match_sym (f : Family) (pos : Nat) (sym : Option KeySym) (b : ModBits) :
    f.position (match_sym pos sym b) =
      if f.has_entry sym = true then pos else f.position b := by
  cases sym with
  | none => cases f <;> simp [match_sym, Family.has_entry]
  | some s =>
    obtain ⟨eSH, eSM, eHM⟩ := family_exclusive s
    by_cases hS : (s = XK_Super_L ∨ s = XK_Super_R) <;>
      by_cases hH : (s = XK_Hyper_L ∨ s = XK_Hyper_R) <;>
      by_cases hM : (s = XK_Meta_L ∨ s = XK_Meta_R) <;>
      first
        | exact absurd hH (eSH hS)
        | exact absurd hM (eSM hS)
        | exact absurd hM (eHM hH)
        | (cases f <;>
            simp [match_sym, Family.has_entry, Family.has_sym, Family.position, hS, hH, hM])

/-- The inner loop: the position of a family becomes `pos` when one of the
entries `j .. j + n - 1` of the row is a keysym of the family and is
unchanged otherwise. -/
theorem position_scan_syms (f : Family) (keymap : List KeySym) (base pos : Nat) :
    ∀ (n j : Nat) (b : ModBits),
      ((∃ t, j ≤ t ∧ t < j + n ∧ f.has_entry keymap[base + t]? = true) →
          f.position (scan_syms keymap base pos n j b) = pos) ∧
        ((¬ ∃ t, j ≤ t ∧ t < j + n ∧ f.has_entry keymap[base + t]? = true) →
          f.position (scan_syms keymap base pos n j b) = f.position b) := by
  intro n
  induction n with
  | zero =>
    intro j b
    constructor
    · rintro ⟨t, h1, h2, _⟩
      omega
    · intro _
      rfl
  | succ n ih =>
    intro j b
    have hstep : scan_syms keymap base pos (n + 1) j b =
        scan_syms keymap base pos n (j + 1) (match_sym pos keymap[base + j]? b) := rfl
    rw [hstep]
    obtain ⟨ih1, ih2⟩ := ih (j + 1) (match_sym pos keymap[base + j]? b)
    by_cases hlater : ∃ t, j + 1 ≤ t ∧ t < j + 1 + n ∧ f.has_entry keymap[base + t]? = true
    · constructor
      · intro _
        exact ih1 hlater
      · intro hno
        obtain ⟨t, h1, h2, h3⟩ := hlater
        exact absurd ⟨t, by omega, by omega, h3⟩ hno
    · rw [ih2 hlater, position_match_sym]
      constructor
      · rintro ⟨t, h1, h2, h3⟩
        by_cases ht : t = j
        · subst ht
          rw [if_pos h3]
        · exact absurd ⟨t, by omega, by omega, h3⟩ hlater
      · intro hno
        have hnow : ¬ f.has_entry keymap[base + j]? = true := fun h =>
          hno ⟨j, le_refl j, by omega, h⟩
        rw [if_neg hnow]

/-- The body of the outer loop at index `i`. -/
theorem position_scan_keycode (f : Family) (k : KeyboardData) (i : Nat) (b : ModBits) :
    f.position (scan_keycode k i b) =
      if index_matches k f i = true then i / k.modmap.max_keypermod else f.position b := by
  unfold scan_keycode index_matches
  simp only []
  by_cases hr : k.min_keycode ≤ k.modmap.modifiermap.getD i 0 ∧
      k.modmap.modifiermap.getD i 0 ≤ k.max_keycode
  · rw [if_pos hr]
    obtain ⟨h1, h2⟩ := position_scan_syms f k.keymap
      ((k.modmap.modifiermap.getD i 0 - k.min_keycode) * k.keysyms_per_keycode)
      (i / k.modmap.max_keypermod) k.keysyms_per_keycode 0 b
    by_cases hex : ∃ t, 0 ≤ t ∧ t < 0 + k.keysyms_per_keycode ∧ f.has_entry
        k.keymap[(k.modmap.modifiermap.getD i 0 - k.min_keycode) * k.keysyms_per_keycode + t]?
          = true
    · rw [h1 hex, if_pos]
      obtain ⟨t, _, ht, hm⟩ := hex
      simp only [hr, and_self, decide_True, Bool.true_and, List.any_eq_true, List.mem_range]
      exact ⟨t, by omega, hm⟩
    · rw [h2 hex, if_neg]
      simp only [hr, and_self, decide_True, Bool.true_and, List.any_eq_true, List.mem_range]
      rintro ⟨t, ht, hm⟩
      exact hex ⟨t, Nat.zero_le t, by omega, hm⟩
  · rw [if_neg hr, if_neg]
    simp only [Bool.and_eq_true, decide_eq_true_eq]
    exact fun h => hr h.1

/-- Invariant of the outer loop: either no index in `i .. i + n - 1`
matches and the position is unchanged, or the position is that of the last
matching index. -/
theorem position_scan_modmap (f : Family) (k : KeyboardData) :
    ∀ (n i : Nat) (b : ModBits),
      (f.position (scan_modmap k n i b) = f.position b ∧
          ∀ t, i ≤ t → t < i + n → index_matches k f t = false) ∨
        ∃ t, i ≤ t ∧ t < i + n ∧ index_matches k f t = true ∧
          f.position (scan_modmap k n i b) = t / k.modmap.max_keypermod ∧
          ∀ u, t < u → u < i + n → index_matches k f u = false := by
  intro n
  induction n with
  | zero =>
    intro i b
    left
    exact ⟨rfl, fun t h1 h2 => by omega⟩
  | succ n ih =>
    intro i b
    have hstep : scan_modmap k (n + 1) i b = scan_modmap k n (i + 1) (scan_keycode k i b) :=
      rfl
    rw [hstep]
    rcases ih (i + 1) (scan_keycode k i b) with ⟨hpos, hno⟩ | ⟨t, h1, h2, h3, h4, h5⟩
    · rw [hpos, position_scan_keycode]
      by_cases hnow : index_matches k f i = true
      · right
        refine ⟨i, le_refl i, by omega, hnow, by rw [if_pos hnow], ?_⟩
        intro u hu1 hu2
        exact hno u (by omega) (by omega)
      · left
        refine ⟨by rw [if_neg hnow], ?_⟩
        intro t ht1 ht2
        by_cases ht : t = i
        · subst ht
          simpa using hnow
        · exact hno t (by omega) (by omega)
    · right
      refine ⟨t, by omega, by omega, h3, h4, ?_⟩
      intro u hu1 hu2
      exact h5 u hu1 (by omega)

/-- The outer loop from index `i` on reads the modifier map only at indices
from `i` on. -/
theorem scan_modmap_congr (k : KeyboardData) (l : List Nat) :
    ∀ (n i : Nat) (b : ModBits),
      (∀ t, i ≤ t → l.getD t 0 = k.modmap.modifiermap.getD t 0) →
      scan_modmap (with_modifiermap k l) n i b = scan_modmap k n i b := by
  intro n
  induction n with
  | zero =>
    intro i b _
    rfl
  | succ n ih =>
    intro i b h
    have hbody : scan_keycode (with_modifiermap k l) i b = scan_keycode k i b := by
      simp only [scan_keycode, with_modifiermap, h i (le_refl i)]
    show scan_modmap (with_modifiermap k l) n (i + 1) (scan_keycode (with_modifiermap k l) i b)
      = scan_modmap k n (i + 1) (scan_keycode k i b)
    rw [hbody]
    exact ih (i + 1) _ (fun t ht => h t (by omega))

/-- A position matches iff one of its slots does. -/
theorem position_matches_iff (k : KeyboardData) (f : Family) (p : Nat) :
    position_matches k f p = true ↔
      ∃ s, s < k.modmap.max_keypermod ∧
        index_matches k f (p * k.modmap.max_keypermod + s) = true := by
  simp only [position_matches, List.any_eq_true, List.mem_range]

/-- The detected position bounds every matching position in 3..7 from
above, and when nonzero it is a matching position in 3..7. -/
theorem detect_highest (k : KeyboardData) (f : Family) :
    (∀ p, 3 ≤ p → p ≤ 7 → position_matches k f p = true →
        p ≤ f.position (detect_modifiers k)) ∧
      (f.position (detect_modifiers k) ≠ 0 →
        3 ≤ f.position (detect_modifiers k) ∧ f.position (detect_modifiers k) ≤ 7 ∧
          position_matches k f (f.position (detect_modifiers k)) = true) := by
  have hzero : f.position { mod_meta := 0, mod_super := 0, mod_hyper := 0 } = 0 := by
    cases f <;> rfl
  have hscan := position_scan_modmap f k
    (8 * k.modmap.max_keypermod - 3 * k.modmap.max_keypermod) (3 * k.modmap.max_keypermod)
    { mod_meta := 0, mod_super := 0, mod_hyper := 0 }
  have hdet : detect_modifiers k = scan_modmap k
      (8 * k.modmap.max_keypermod - 3 * k.modmap.max_keypermod) (3 * k.modmap.max_keypermod)
      { mod_meta := 0, mod_super := 0, mod_hyper := 0 } := rfl
  rw [← hdet, hzero] at hscan
  have hin : ∀ p s, 3 ≤ p → p ≤ 7 → s < k.modmap.max_keypermod →
      3 * k.modmap.max_keypermod ≤ p * k.modmap.max_keypermod + s ∧
        p * k.modmap.max_keypermod + s <
          3 * k.modmap.max_keypermod +
            (8 * k.modmap.max_keypermod - 3 * k.modmap.max_keypermod) := by
    intro p s hp3 hp7 hs
    have h1 : 3 * k.modmap.max_keypermod ≤ p * k.modmap.max_keypermod :=
      Nat.mul_le_mul_right _ hp3
    have h2 : p * k.modmap.max_keypermod ≤ 7 * k.modmap.max_keypermod :=
      Nat.mul_le_mul_right _ hp7
    omega
  rcases hscan with ⟨hR, hno⟩ | ⟨t, ht1, ht2, ht3, hR, hlast⟩
  · constructor
    · intro p hp3 hp7 hp
      obtain ⟨s, hs, hm⟩ := (position_matches_iff k f p).1 hp
      obtain ⟨h1, h2⟩ := hin p s hp3 hp7 hs
      rw [hno _ h1 h2] at hm
      exact absurd hm (by decide)
    · intro hne
      exact absurd hR hne
  · have hmpos : 0 < k.modmap.max_keypermod := by omega
    have ht8 : t < 8 * k.modmap.max_keypermod := by omega
    constructor
    · intro p hp3 hp7 hp
      obtain ⟨s, hs, hm⟩ := (position_matches_iff k f p).1 hp
      obtain ⟨h1, h2⟩ := hin p s hp3 hp7 hs
      have hle : p * k.modmap.max_keypermod + s ≤ t := by
        by_contra hlt
        rw [hlast _ (by omega) h2] at hm
        exact absurd hm (by decide)
      rw [hR]
      exact (Nat.le_div_iff_mul_le hmpos).2 (by omega)
    · intro _
      rw [hR]
      refine ⟨(Nat.le_div_iff_mul_le hmpos).2 ht1, ?_, ?_⟩
      · have : t / k.modmap.max_keypermod < 8 := (Nat.div_lt_iff_lt_mul hmpos).2 ht8
        omega
      · refine (position_matches_iff k f _).2 ⟨t % k.modmap.max_keypermod,
          Nat.mod_lt _ hmpos, ?_⟩
        rw [Nat.div_add_mod']
        exact ht3

/-- The detected position is `highest_position`. -/
theorem detect_eq_highest (k : KeyboardData) (f : Family) :
    f.position (detect_modifiers k) = highest_position k f := by
  obtain ⟨h1, h2⟩ := detect_highest k f
  generalize f.position (detect_modifiers k) = R at h1 h2
  have habove : ∀ p, 3 ≤ p → p ≤ 7 → R < p → position_matches k f p = false := by
    intro p a b c
    cases h : position_matches k f p
    · rfl
    · have := h1 p a b h
      omega
  unfold highest_position
  by_cases hR0 : R = 0
  · subst hR0
    simp [List.find?, habove 7 (by omega) (by omega) (by omega),
      habove 6 (by omega) (by omega) (by omega), habove 5 (by omega) (by omega) (by omega),
      habove 4 (by omega) (by omega) (by omega), habove 3 (by omega) (by omega) (by omega)]
  · obtain ⟨a, b, c⟩ := h2 hR0
    interval_cases R
    · simp [List.find?, c, habove 7 (by omega) (by omega) (by omega),
        habove 6 (by omega) (by omega) (by omega), habove 5 (by omega) (by omega) (by omega),
        habove 4 (by omega) (by omega) (by omega)]
    · simp [List.find?, c, habove 7 (by omega) (by omega) (by omega),
        habove 6 (by omega) (by omega) (by omega), habove 5 (by omega) (by omega) (by omega)]
    · simp [List.find?, c, habove 7 (by omega) (by omega) (by omega),
        habove 6 (by omega) (by omega) (by omega)]
    · simp [List.find?, c, habove 7 (by omega) (by omega) (by omega)]
    · simp [List.find?, c]

/-- C10: for every keyboard (modifier map with `max_keypermod` slots per
position, keycode range, keysym table) and each family F of Super, Hyper,
Meta, the position the scan detects for F is the highest position p in 3..7
that has a slot whose keycode lies in [min_keycode, max_keycode] and has a
left or right F keysym among its keysyms, and 0 when no position in 3..7 has
one: it is at least every matching position in 3..7; when nonzero it lies in
3..7 and matches; it is 0 when nothing matches; it equals
`highest_position`; and it does not change when the entries of the modifier
map for positions 0-2 (indices below 3 * max_keypermod) are replaced. -/
theorem detect_modifiers_spec (k : KeyboardData) (f : Family) :
    (∀ p, 3 ≤ p → p ≤ 7 → position_matches k f p = true →
        p ≤ f.position (detect_modifiers k)) ∧
      (f.position (detect_modifiers k) ≠ 0 →
        3 ≤ f.position (detect_modifiers k) ∧ f.position (detect_modifiers k) ≤ 7 ∧
          position_matches k f (f.position (detect_modifiers k)) = true) ∧
      ((∀ p, 3 ≤ p → p ≤ 7 → position_matches k f p = false) →
        f.position (detect_modifiers k) = 0) ∧
      (f.position (detect_modifiers k) = 0 ∨
        (3 ≤ f.position (detect_modifiers k) ∧ f.position (detect_modifiers k) ≤ 7)) ∧
      f.position (detect_modifiers k) = highest_position k f ∧
      (∀ l : List Nat,
        (∀ i, 3 * k.modmap.max_keypermod ≤ i →
          l.getD i 0 = k.modmap.modifiermap.getD i 0) →
        detect_modifiers (with_modifiermap k l) = detect_modifiers k) := by
  obtain ⟨h1, h2⟩ := detect_highest k f
  refine ⟨h1, h2, ?_, ?_, detect_eq_highest k f, ?_⟩
  · intro hnone
    by_contra hne
    obtain ⟨a, b, c⟩ := h2 hne
    rw [hnone _ a b] at c
    exact absurd c (by decide)
  · by_cases hne : f.position (detect_modifiers k) = 0
    · exact Or.inl hne
    · exact Or.inr ⟨(h2 hne).1, (h2 hne).2.1⟩
  · intro l hl
    exact scan_modmap_congr k l _ _ _ hl

/-! ### Classification -/

/-- The mask `1 << m` differs from Mod1Mask iff `m` is not 3. -/
theorem shift_ne_mod1_iff (m : Nat) : (1 <<< m) ≠ Mod1Mask ↔ m ≠ 3 := by
  have h8 : Mod1Mask = 2 ^ 3 := by decide
  rw [Nat.one_shiftLeft, h8]
  constructor
  · intro h e
    exact h (by rw [e])
  · intro h e
    exact h (Nat.pow_right_injective (le_refl 2) e)

/-- A modifier is in the option list iff its flag is set. -/
theorem value_mem_iff (have_hyper have_super have_meta : Bool) :
    ("Hyper" ∈ values (mouse_modifiers_of_flags have_hyper have_super have_meta) ↔
        have_hyper = true) ∧
      ("Super" ∈ values (mouse_modifiers_of_flags have_hyper have_super have_meta) ↔
        have_super = true) ∧
      ("Meta" ∈ values (mouse_modifiers_of_flags have_hyper have_super have_meta) ↔
        have_meta = true) := by
  cases have_hyper <;> cases have_super <;> cases have_meta <;> decide

/-- C9: for every triple of detected positions, Meta is flagged present iff
`1 << mod_meta` differs from the Alt mask `Mod1Mask` = 8 (that is, iff
mod_meta is not 3); Super iff mod_super is nonzero and differs from
mod_meta; Hyper iff mod_hyper is nonzero and differs from mod_meta and from
mod_super; and a modifier is in the option list iff it is flagged. -/
theorem classify_rules (b : ModBits) :
    Mod1Mask = 8 ∧
      ((classify b).have_meta = true ↔ (1 <<< b.mod_meta) ≠ 8) ∧
      ((classify b).have_meta = true ↔ b.mod_meta ≠ 3) ∧
      ((classify b).have_super = true ↔ (b.mod_super ≠ 0 ∧ b.mod_super ≠ b.mod_meta)) ∧
      ((classify b).have_hyper = true ↔
        (b.mod_hyper ≠ 0 ∧ b.mod_hyper ≠ b.mod_meta ∧ b.mod_hyper ≠ b.mod_super)) ∧
      ("Meta" ∈ values (mouse_modifiers_of_flags (classify b).have_hyper
          (classify b).have_super (classify b).have_meta) ↔ (1 <<< b.mod_meta) ≠ 8) ∧
      ("Super" ∈ values (mouse_modifiers_of_flags (classify b).have_hyper
          (classify b).have_super (classify b).have_meta) ↔
        (b.mod_super ≠ 0 ∧ b.mod_super ≠ b.mod_meta)) ∧
      ("Hyper" ∈ values (mouse_modifiers_of_flags (classify b).have_hyper
          (classify b).have_super (classify b).have_meta) ↔
        (b.mod_hyper ≠ 0 ∧ b.mod_hyper ≠ b.mod_meta ∧ b.mod_hyper ≠ b.mod_super)) := by
  have h8 : Mod1Mask = 8 := by decide
  have hmeta : (classify b).have_meta = true ↔ (1 <<< b.mod_meta) ≠ 8 := by
    simp only [classify, decide_eq_true_eq, h8]
  have hsuper : (classify b).have_super = true ↔
      (b.mod_super ≠ 0 ∧ b.mod_super ≠ b.mod_meta) := by
    simp only [classify, decide_eq_true_eq]
  have hhyper : (classify b).have_hyper = true ↔
      (b.mod_hyper ≠ 0 ∧ b.mod_hyper ≠ b.mod_meta ∧ b.mod_hyper ≠ b.mod_super) := by
    simp only [classify, decide_eq_true_eq]
  obtain ⟨m1, m2, m3⟩ := value_mem_iff (classify b).have_hyper (classify b).have_super
    (classify b).have_meta
  refine ⟨h8, hmeta, ?_, hsuper, hhyper, m3.trans hmeta, m2.trans hsuper, m1.trans hhyper⟩
  rw [hmeta, ← h8]
  exact shift_ne_mod1_iff b.mod_meta

/-- C7 (counterexample): on the keyboard `super_on_mod1` the Super_L key
sits on Mod1 (position 3, next to Alt_L) and Meta_L on Mod3. The scan
detects Super at position 3 and Meta at position 5, all reads are inside
the fetched table, and Super is offered as a separate option. -/
theorem super_on_mod1_is_offered :
    detect_modifiers (fetch_keyboard super_on_mod1) =
        { mod_meta := 5, mod_super := 3, mod_hyper := 0 } ∧
      position_matches (fetch_keyboard super_on_mod1) Family.Super 3 = true ∧
      values (reload_mouse_modifiers super_on_mod1) = ["Alt", "Super", "Meta"] ∧
      "Super" ∈ values (reload_mouse_modifiers super_on_mod1) ∧
      ¬ (detect_modifiers (fetch_keyboard super_on_mod1)).mod_super ≠ 3 := by
  decide

/-- C7 (amended): for every modifier map and keysym table, a Meta option is
offered only when the detected Meta position is not bit 3; an offered
Super has a detected position in 3..7 that differs from the Meta position;
an offered Hyper has a detected position in 3..7 that differs from the Meta
and the Super position. Super and Hyper are not compared with bit 3
themselves: they are kept off bit 3 only when Meta is detected there. -/
theorem offered_positions (k : KeyboardData) :
    ("Meta" ∈ values (reload_from_keyboard k) → (detect_modifiers k).mod_meta ≠ 3) ∧
      ("Super" ∈ values (reload_from_keyboard k) →
        3 ≤ (detect_modifiers k).mod_super ∧ (detect_modifiers k).mod_super ≤ 7 ∧
          (detect_modifiers k).mod_super ≠ (detect_modifiers k).mod_meta) ∧
      ("Hyper" ∈ values (reload_from_keyboard k) →
        3 ≤ (detect_modifiers k).mod_hyper ∧ (detect_modifiers k).mod_hyper ≤ 7 ∧
          (detect_modifiers k).mod_hyper ≠ (detect_modifiers k).mod_meta ∧
          (detect_modifiers k).mod_hyper ≠ (detect_modifiers k).mod_super) ∧
      ((detect_modifiers k).mod_meta = 3 →
        ("Super" ∈ values (reload_from_keyboard k) → (detect_modifiers k).mod_super ≠ 3) ∧
        ("Hyper" ∈ values (reload_from_keyboard k) → (detect_modifiers k).mod_hyper ≠ 3)) := by
  obtain ⟨m1, m2, m3⟩ := value_mem_iff (classify (detect_modifiers k)).have_hyper
    (classify (detect_modifiers k)).have_super (classify (detect_modifiers k)).have_meta
  have hrel : reload_from_keyboard k = mouse_modifiers_of_flags
      (classify (detect_modifiers k)).have_hyper (classify (detect_modifiers k)).have_super
      (classify (detect_modifiers k)).have_meta := rfl
  rw [hrel, m1, m2, m3]
  have hS := (detect_highest k Family.Super).2
  have hH := (detect_highest k Family.Hyper).2
  simp only [Family.position] at hS hH
  simp only [classify, decide_eq_true_eq]
  refine ⟨?_, ?_, ?_, ?_⟩
  · intro h
    exact (shift_ne_mod1_iff _).1 h
  · rintro ⟨h0, h1⟩
    exact ⟨(hS h0).1, (hS h0).2.1, h1⟩
  · rintro ⟨h0, h1, h2⟩
    exact ⟨(hH h0).1, (hH h0).2.1, h1, h2⟩
  · intro h3
    constructor
    · rintro ⟨_, h1⟩
      rw [h3] at h1
      exact h1
    · rintro ⟨_, h1, _⟩
      rw [h3] at h1
      exact h1

/-- C8: on the keyboard `no_meta_key` no key carries a Meta keysym. The
scan leaves mod_meta at zero (no position matches Meta), yet the option
list is [Alt, Super, Meta]: Meta is offered. For every scan result a zero
Super or Hyper position clears the flag, and a zero Meta position sets
it. -/
theorem meta_offered_without_meta_key :
    detect_modifiers (fetch_keyboard no_meta_key) =
        { mod_meta := 0, mod_super := 6, mod_hyper := 0 } ∧
      highest_position (fetch_keyboard no_meta_key) Family.Meta = 0 ∧
      values (reload_mouse_modifiers no_meta_key) = ["Alt", "Super", "Meta"] ∧
      (∀ b : ModBits,
        (b.mod_super = 0 → (classify b).have_super = false) ∧
        (b.mod_hyper = 0 → (classify b).have_hyper = false) ∧
        (b.mod_meta = 0 → (classify b).have_meta = true)) := by
  refine ⟨by decide, by decide, by decide, ?_⟩
  intro b
  refine ⟨?_, ?_, ?_⟩
  · intro h
    simp [classify, h]
  · intro h
    simp [classify, h]
  · intro h
    simp only [classify, h, decide_eq_true_eq]
    decide

/-! ### The fetched keysym table -/

/-- C11: the fetched table does not cover the keycode `max_keycode`. The
table is requested for `max_keycode - min_keycode` keycodes, so it has at
most `(max_keycode - min_keycode) * keysyms_per_keycode` entries, and for
every keyboard and every `j` the read for keycode `max_keycode`, at index
`(max_keycode - min_keycode) * keysyms_per_keycode + j`, falls past its
end. On the keyboard `super_on_last_keycode` the modifier map holds keycode
12 = max_keycode at Mod4, the keycode passes the range test, the fetched
table has 4 entries and the scan reads index 4: the lookup takes its
out-of-range branch. The server has Super_L for that key; the scan over the
fetched table does not see it, the scan over the table of all 5 keycodes
detects Super at position 6. -/
theorem last_keycode_read_out_of_table :
    (∀ x : XServer,
        (fetch_keyboard x).keymap.length ≤
          (x.max_keycode - x.min_keycode) * x.keysyms_per_keycode) ∧
      (∀ (x : XServer) (j : Nat),
        (fetch_keyboard x).keymap[((fetch_keyboard x).max_keycode -
          (fetch_keyboard x).min_keycode) * (fetch_keyboard x).keysyms_per_keycode + j]?
            = none) ∧
      (fetch_keyboard super_on_last_keycode).modmap.modifiermap.getD 6 0 = 12 ∧
      (fetch_keyboard super_on_last_keycode).min_keycode ≤ 12 ∧
      12 ≤ (fetch_keyboard super_on_last_keycode).max_keycode ∧
      (fetch_keyboard super_on_last_keycode).keymap.length = 4 ∧
      ¬ ((12 - (fetch_keyboard super_on_last_keycode).min_keycode) *
          (fetch_keyboard super_on_last_keycode).keysyms_per_keycode + 0 <
        (fetch_keyboard super_on_last_keycode).keymap.length) ∧
      (fetch_keyboard super_on_last_keycode).keymap[(12 -
          (fetch_keyboard super_on_last_keycode).min_keycode) *
          (fetch_keyboard super_on_last_keycode).keysyms_per_keycode + 0]? = none ∧
      super_on_last_keycode.keysyms[(12 - super_on_last_keycode.min_keycode) *
          super_on_last_keycode.keysyms_per_keycode + 0]? = some XK_Super_L ∧
      detect_modifiers (fetch_keyboard super_on_last_keycode) =
        { mod_meta := 0, mod_super := 0, mod_hyper := 0 } ∧
      detect_modifiers { fetch_keyboard super_on_last_keycode with
          keymap := XGetKeyboardMapping super_on_last_keycode 8 5 } =
        { mod_meta := 0, mod_super := 6, mod_hyper := 0 } := by
  have hlen : ∀ x : XServer, (fetch_keyboard x).keymap.length ≤
      (x.max_keycode - x.min_keycode) * x.keysyms_per_keycode := by
    intro x
    simp only [fetch_keyboard, XGetKeyboardMapping, List.length_take]
    exact Nat.min_le_left _ _
  refine ⟨hlen, ?_, by decide, by decide, by decide, by decide, by decide, by decide,
    by decide, by decide, by decide⟩
  intro x j
  rw [List.getElem?_eq_none_iff]
  have h := hlen x
  show (fetch_keyboard x).keymap.length ≤
    (x.max_keycode - x.min_keycode) * x.keysyms_per_keycode + j
  omega

end MateWindowProperties
